import Mathlib

/-!
Shallow embedding of the Exp1-Intent governance pipeline
(`hooks/constitution_hook.py`, `governor.py`, `evals/judge_eval.py`),
together with theorems settling the frozen claims about the spec.

Modelling choices:
* Python dict arguments become association lists `List (String × Value)`;
  numbers are modelled by `ℚ` (the claims do not depend on float rounding).
* Raising an exception is modelled by `Except String`; the error payload is
  the exception message string built exactly as in the source.
* The single call site `function_call(**arguments)` in each hook is traced:
  the hook also returns the list of argument dictionaries it invoked the
  underlying action with, so at-most-once / exactly-once execution is a
  statement about that trace.
* The constitution file is re-read on every call in the source; here the
  parsed YAML document (an association list from action name to rule list)
  is passed to the hook directly.
-/

namespace IntentGovernance

/-- A Python value as it appears in a tool-call argument dictionary:
a number, a string, or `None`. -/
inductive Value where
  | num (q : ℚ)
  | str (s : String)
  | vnone
deriving DecidableEq, Repr

/-- An argument dictionary: association list from argument name to value. -/
abbrev Args := List (String × Value)

/-- `arguments.get(k, d)` on a Python dict. -/
def getArg (arguments : Args) (k : String) (d : Value) : Value :=
  match List.lookup k arguments with
  | some v => v
  | none => d

/-- Python `float(x)`: a number coerces to itself, a string is parsed
(modelled for integer literals via `String.toInt?`; Python accepts a wider
float grammar, which no claim exercises), and `None` or an unparsable
string raises `TypeError`/`ValueError` (modelled as `none`). -/
def pyFloat? : Value → Option ℚ
  | Value.num q => some q
  | Value.str s => (String.toInt? s).map (fun n => (n : ℚ))
  | Value.vnone => none

/-- Python `x or d` for an optional number: `None` and `0` are falsy,
so both select the default `d`. -/
def pyOrNum (x : Option ℚ) (d : ℚ) : ℚ :=
  match x with
  | some t => if t = 0 then d else t
  | none => d

/-- The session-state dictionary, typed down to the two keys the hook
reads: `customer_tier` (read with default "standard") and
`customer_tenure_days` (read with default 0).  A missing key is `none`. -/
structure SessionState where
  customer_tier : Option String
  customer_tenure_days : Option ℚ
deriving DecidableEq, Repr

/-- `run_context.session_state or {}` when the session state is `None`. -/
def emptySessionState : SessionState := ⟨none, none⟩

/-- `agno.run.RunContext`, reduced to the one field the hook reads. -/
structure RunContext where
  session_state : Option SessionState
deriving DecidableEq, Repr

/-- `_evaluate_condition` from `hooks/constitution_hook.py`:
`any` is always true; `high_value` compares the coerced `amount` argument
against `threshold or 100`; `high_tenure` compares the session's
`customer_tenure_days` against `threshold or 730`; any other condition
name logs a warning and evaluates to false. -/
def evaluate_condition (condition : String) (session_state : SessionState)
    (arguments : Args) (threshold : Option ℚ) : Bool :=
  if condition = "any" then
    true
  else if condition = "high_value" then
    let amount0 := getArg arguments "amount" (Value.num 0)
    let amount := (pyFloat? amount0).getD 0
    decide (amount ≥ pyOrNum threshold 100)
  else if condition = "high_tenure" then
    let tenure_days := (session_state.customer_tenure_days).getD 0
    decide (tenure_days ≥ pyOrNum threshold 730)
  else
    false

/-- One rule object of the constitution YAML.  Each field may be absent
from the mapping; the hook reads them with `rule.get(field, default)`. -/
structure Rule where
  condition : Option String
  action : Option String
  reason : Option String
  threshold : Option ℚ
deriving DecidableEq, Repr

/-- The rule object `\x7b\x7d` with every field absent. -/
def emptyRule : Rule := ⟨none, none, none, none⟩

/-- The parsed constitution document: action name → ordered rule list. -/
abbrev Constitution := List (String × List Rule)

/-- `constitution.get(function_name, [])`. -/
def constGet (constitution : Constitution) (function_name : String) : List Rule :=
  match List.lookup function_name constitution with
  | some rules => rules
  | none => []

/-- The message of the `ValueError` raised on a reject decision. -/
def blockMsg (function_name reason : String) : String :=
  "[Intent Block] " ++ function_name ++ " denied: " ++ reason

/-- The message of the `ValueError` raised on an escalate decision. -/
def escalateMsg (function_name reason : String) : String :=
  "[Intent Escalation] " ++ function_name ++ " requires human review: " ++ reason

/-- The session state the hook resolves from a run context
(`run_context.session_state or \x7b\x7d`). -/
def sessionOf (run_context : RunContext) : SessionState :=
  (run_context.session_state).getD emptySessionState

/-- The customer tier the hook resolves from a run context
(`session_state.get("customer_tier", "standard")`). -/
def tierOf (run_context : RunContext) : String :=
  ((sessionOf run_context).customer_tier).getD "standard"

/-- The `for rule in rules` loop of `intent_constitution_hook`:
reads each rule field with its `rule.get` default, skips non-matching
rules, raises on `reject` (unless the tier is enterprise) and on
`escalate`, breaks on `approve`, and otherwise continues to the next
rule.  `Except.ok ()` means the loop finished without raising, so
execution proceeds to the underlying call. -/
def runRules (function_name customer_tier : String) (session_state : SessionState)
    (arguments : Args) : List Rule → Except String Unit
  | [] => Except.ok ()
  | rule :: rest =>
    if evaluate_condition (rule.condition.getD "any") session_state arguments
        rule.threshold = false then
      runRules function_name customer_tier session_state arguments rest
    else if rule.action.getD "approve" = "reject" ∧ customer_tier ≠ "enterprise" then
      Except.error (blockMsg function_name (rule.reason.getD ""))
    else if rule.action.getD "approve" = "escalate" then
      Except.error (escalateMsg function_name (rule.reason.getD ""))
    else if rule.action.getD "approve" = "approve" then
      Except.ok ()
    else
      runRules function_name customer_tier session_state arguments rest

/-- `intent_constitution_hook` from `hooks/constitution_hook.py`, the
hook returned by `create_constitution_hook`.  Returns the hook's result
(the underlying call's result, or the raised `ValueError` message) paired
with the trace of argument dictionaries passed to `function_call` — the
source has a single such call site, executed once iff the rule loop did
not raise. -/
def intent_constitution_hook {α : Type} (constitution : Constitution)
    (run_context : RunContext) (function_name : String)
    (function_call : Args → α) (arguments : Args) :
    Except String α × List Args :=
  match runRules function_name (tierOf run_context) (sessionOf run_context)
      arguments (constGet constitution function_name) with
  | Except.error e => (Except.error e, [])
  | Except.ok () => (Except.ok (function_call arguments), [arguments])

/-- Whether a rule's condition fires for this invocation, with the
field defaults the hook applies. -/
def ruleMatches (session_state : SessionState) (arguments : Args) (rule : Rule) : Bool :=
  evaluate_condition (rule.condition.getD "any") session_state arguments rule.threshold

/-- The first rule of the list whose condition fires. -/
def firstMatch (session_state : SessionState) (arguments : Args)
    (rules : List Rule) : Option Rule :=
  List.find? (ruleMatches session_state arguments) rules

/-- The condition evaluator as §4.2 of the spec words it: the default
threshold (100 for `high_value`, 730 for `high_tenure`) is used exactly
when the rule's `threshold` field is absent. -/
def spec_evaluate_condition (condition : String) (session_state : SessionState)
    (arguments : Args) (threshold : Option ℚ) : Bool :=
  if condition = "any" then
    true
  else if condition = "high_value" then
    let amount := (pyFloat? (getArg arguments "amount" (Value.num 0))).getD 0
    decide (amount ≥ threshold.getD 100)
  else if condition = "high_tenure" then
    decide ((session_state.customer_tenure_days).getD 0 ≥ threshold.getD 730)
  else
    false

/-- The amended reference semantics, written as the registry of §4.2:
condition name → predicate over (context, arguments, threshold).  The
default threshold is used when the `threshold` field is absent or zero
(Python `threshold or default`). -/
def conditionRegistry : List (String × (SessionState → Args → Option ℚ → Bool)) :=
  [("any", fun _ _ _ => true),
   ("high_value", fun _ arguments threshold =>
      decide ((pyFloat? (getArg arguments "amount" (Value.num 0))).getD 0 ≥
        pyOrNum threshold 100)),
   ("high_tenure", fun session_state _ threshold =>
      decide ((session_state.customer_tenure_days).getD 0 ≥ pyOrNum threshold 730))]

/-- Registry dispatch: an unregistered condition name is a no-match. -/
def registry_evaluate_condition (condition : String) (session_state : SessionState)
    (arguments : Args) (threshold : Option ℚ) : Bool :=
  match List.lookup condition conditionRegistry with
  | some p => p session_state arguments threshold
  | none => false

/-- One audit log record emitted by `logger_hook`: the `[AUDIT START]`
line carries the function name and the sanitised argument dictionary;
the `[AUDIT END]` line carries the function name and the elapsed
wall-clock duration (and no arguments). -/
inductive AuditRecord where
  | start (function_name : String) (arguments : Args)
  | stop (function_name : String) (elapsed : ℚ)
deriving DecidableEq, Repr

/-- Whether a record is an `[AUDIT START]` line. -/
def AuditRecord.isStart : AuditRecord → Bool
  | AuditRecord.start _ _ => true
  | AuditRecord.stop _ _ => false

/-- Whether a record is an `[AUDIT END]` line. -/
def AuditRecord.isStop : AuditRecord → Bool
  | AuditRecord.start _ _ => false
  | AuditRecord.stop _ _ => true

/-- The argument dictionary a record exposes to the log sink
(the `[AUDIT END]` line logs no arguments). -/
def AuditRecord.recArgs : AuditRecord → Args
  | AuditRecord.start _ arguments => arguments
  | AuditRecord.stop _ _ => []

/-- The argument names `logger_hook` redacts. -/
def sensitiveKeys : List String := ["password", "token", "secret"]

/-- The dict comprehension of `logger_hook`: values of keys named
`password`, `token` or `secret` are replaced by the marker string,
every other pair is kept unchanged. -/
def sanitise_args (arguments : Args) : Args :=
  arguments.map (fun kv =>
    if kv.1 ∈ sensitiveKeys then (kv.1, Value.str "***") else kv)

/-- `logger_hook` from `hooks/constitution_hook.py`.  The inner callable
may itself raise (modelled by `Except`); `elapsed` stands for the
measured wall-clock duration.  The hook logs the start record, invokes
the inner callable once, and logs the end record only after that call
returns — an exception propagates before the end record is reached. -/
def logger_hook {α : Type} (function_name : String)
    (function_call : Args → Except String α) (arguments : Args)
    (elapsed : ℚ) : Except String α × List AuditRecord :=
  let startRec := AuditRecord.start function_name (sanitise_args arguments)
  match function_call arguments with
  | Except.error e => (Except.error e, [startRec])
  | Except.ok result => (Except.ok result, [startRec, AuditRecord.stop function_name elapsed])

/-- A stage of an agent's `tool_hooks` list. -/
inductive ToolHook where
  | logger
  | constitution
  | custom (id : ℕ)
deriving DecidableEq, Repr

/-- An agent's instruction source: a static prompt string, or the
callable intent retriever installed by the governor. -/
inductive Instructions where
  | static (text : String)
  | retriever
deriving DecidableEq, Repr

/-- An `agno.agent.Agent`, reduced to the two fields `wrap` modifies.
`tool_hooks` is `none` when the agent was built without hooks. -/
structure Agent where
  tool_hooks : Option (List ToolHook)
  instructions : Instructions
deriving DecidableEq, Repr

/-- `IntentGovernor.wrap` from `governor.py`: prepends
`[logger_hook, constitution_hook]` to the (possibly absent) pre-existing
hook list and installs the intent retriever as instructions. -/
def wrap (agent : Agent) : Agent :=
  let existing_hooks := (agent.tool_hooks).getD []
  { tool_hooks := some ([ToolHook.logger, ToolHook.constitution] ++ existing_hooks),
    instructions := Instructions.retriever }

/-- The fields of an `AgentAsJudgeEvaluation` that the Slack escalation
hook reads when building its payload. -/
structure EvalResult where
  score : ℚ
  passed : Bool
  input : String
  reason : String
deriving Repr

/-- The behaviour of the outbound webhook delivery attempt:
the post succeeds with a 2xx response, the post call itself raises
(network error / timeout), or `raise_for_status` raises on a non-2xx
response. -/
inductive PostOutcome where
  | success
  | raiseOnPost
  | raiseOnStatus
deriving DecidableEq, Repr

/-- Which delivery path fired for an escalation. -/
inductive DeliveryPath where
  | slack
  | fallback
deriving DecidableEq, Repr

/-- Python truthiness of the stored webhook URL (`if not self.webhook_url`):
`None` and the empty string are falsy. -/
def urlTruthy : Option String → Bool
  | some s => decide (s ≠ "")
  | none => false

/-- The Slack payload, reduced to the fields computed from the
evaluation result: the headline text, the score colour
(red below 5, amber otherwise), the truncated input and the reasoning. -/
structure SlackPayload where
  text : String
  score_color : String
  input_excerpt : String
  reasoning : String
deriving DecidableEq, Repr

/-- Build the Slack payload exactly as `SlackEscalationHook.__call__`
does before entering the `try` block. -/
def buildSlackPayload (result : EvalResult) : SlackPayload :=
  { text := "Intent Governance Escalation Required (Score: " ++
      toString result.score ++ "/10)",
    score_color := if result.score < 5 then "#eb4034" else "#fca103",
    input_excerpt := (result.input.take 100) ++ "...",
    reasoning := result.reason }

/-- `httpx.post(self.webhook_url, json=payload, timeout=10.0)` followed by
`response.raise_for_status()`: either step may raise. -/
def postAndRaiseForStatus (post : PostOutcome) (payload : SlackPayload) :
    Except String Unit :=
  match post, payload with
  | PostOutcome.success, _ => Except.ok ()
  | PostOutcome.raiseOnPost, _ => Except.error "ConnectError"
  | PostOutcome.raiseOnStatus, _ => Except.error "HTTPStatusError"

/-- `SlackEscalationHook.__call__` from `evals/judge_eval.py`.
With no (truthy) webhook URL it runs `default_escalation_hook` — a pure
logging call that returns — and returns.  Otherwise it posts the payload
inside `try`; any exception is caught and `default_escalation_hook` runs
as fallback.  The returned value records which delivery path fired; an
uncaught exception would be `Except.error`. -/
def slackEscalationHookCall (webhook_url : Option String) (post : PostOutcome)
    (result : EvalResult) : Except String DeliveryPath :=
  if urlTruthy webhook_url = false then
    Except.ok DeliveryPath.fallback
  else
    let payload := buildSlackPayload result
    match postAndRaiseForStatus post payload with
    | Except.ok () => Except.ok DeliveryPath.slack
    | Except.error _ => Except.ok DeliveryPath.fallback

/-! ### Helper lemmas about the rule loop and the audit logger -/

/-- If no rule in the list matches, the loop falls through and the hook
approves. -/
theorem runRules_ok_of_no_match (function_name customer_tier : String)
    (session_state : SessionState) (arguments : Args) (rules : List Rule)
    (h : ∀ r ∈ rules, ruleMatches session_state arguments r = false) :
    runRules function_name customer_tier session_state arguments rules = Except.ok () := by
  induction rules with
  | nil => rfl
  | cons rule rest ih =>
    have hr : evaluate_condition (rule.condition.getD "any") session_state arguments
        rule.threshold = false := h rule (List.mem_cons_self rule rest)
    simp only [runRules, if_pos hr]
    exact ih (fun r hr' => h r (List.mem_cons_of_mem _ hr'))

/-- If the first matching rule carries action `reject` or `escalate` and
the tier is not enterprise, the loop raises the corresponding
`ValueError`, whose message is built from the matched rule's reason. -/
theorem runRules_error_of_firstMatch_block
    (function_name customer_tier : String) (session_state : SessionState)
    (arguments : Args) (rules : List Rule) (r : Rule)
    (hm : firstMatch session_state arguments rules = some r)
    (ha : r.action.getD "approve" = "reject" ∨ r.action.getD "approve" = "escalate")
    (ht : customer_tier ≠ "enterprise") :
    runRules function_name customer_tier session_state arguments rules =
      Except.error (blockMsg function_name (r.reason.getD "")) ∨
    runRules function_name customer_tier session_state arguments rules =
      Except.error (escalateMsg function_name (r.reason.getD "")) := by
  induction rules with
  | nil => simp [firstMatch] at hm
  | cons rule rest ih =>
    by_cases hmatch : ruleMatches session_state arguments rule = true
    · have hr : rule = r := by
        simp [firstMatch, List.find?, hmatch] at hm
        exact hm
      subst hr
      have hcond : ¬(evaluate_condition (rule.condition.getD "any") session_state
          arguments rule.threshold = false) := by
        rw [ruleMatches] at hmatch
        simp [hmatch]
      rcases ha with ha | ha
      · left
        simp only [runRules, if_neg hcond, if_pos (And.intro ha ht)]
      · right
        have h2 : ¬(rule.action.getD "approve" = "reject" ∧ customer_tier ≠ "enterprise") :=
          fun hc => absurd (ha.symm.trans hc.1) (by decide)
        simp only [runRules, if_neg hcond, if_neg h2, if_pos ha]
    · rw [Bool.not_eq_true] at hmatch
      have hm' : firstMatch session_state arguments rest = some r := by
        simp [firstMatch, List.find?, hmatch] at hm
        simpa [firstMatch] using hm
      have hcond : evaluate_condition (rule.condition.getD "any") session_state arguments
          rule.threshold = false := hmatch
      simp only [runRules, if_pos hcond]
      exact ih hm'

/-- If the first matching rule carries action `approve`, the loop breaks
with approval; later rules are never examined. -/
theorem runRules_ok_of_firstMatch_approve
    (function_name customer_tier : String) (session_state : SessionState)
    (arguments : Args) (rules : List Rule) (r : Rule)
    (hm : firstMatch session_state arguments rules = some r)
    (ha : r.action.getD "approve" = "approve") :
    runRules function_name customer_tier session_state arguments rules = Except.ok () := by
  induction rules with
  | nil => simp [firstMatch] at hm
  | cons rule rest ih =>
    by_cases hmatch : ruleMatches session_state arguments rule = true
    · have hr : rule = r := by
        simp [firstMatch, List.find?, hmatch] at hm
        exact hm
      subst hr
      have hcond : ¬(evaluate_condition (rule.condition.getD "any") session_state
          arguments rule.threshold = false) := by
        rw [ruleMatches] at hmatch
        simp [hmatch]
      have h2 : ¬(rule.action.getD "approve" = "reject" ∧ customer_tier ≠ "enterprise") :=
        fun hc => absurd (ha.symm.trans hc.1) (by decide)
      have h3 : ¬(rule.action.getD "approve" = "escalate") :=
        fun hc => absurd (ha.symm.trans hc) (by decide)
      simp only [runRules, if_neg hcond, if_neg h2, if_neg h3, if_pos ha]
    · rw [Bool.not_eq_true] at hmatch
      have hm' : firstMatch session_state arguments rest = some r := by
        simp [firstMatch, List.find?, hmatch] at hm
        simpa [firstMatch] using hm
      have hcond : evaluate_condition (rule.condition.getD "any") session_state arguments
          rule.threshold = false := hmatch
      simp only [runRules, if_pos hcond]
      exact ih hm'

/-- For an enterprise-tier caller, a list of rules none of which carries
action `escalate` can never raise: matching `reject` rules are skipped by
the tier bypass, `approve` breaks, everything else falls through. -/
theorem runRules_ok_of_enterprise
    (function_name : String) (session_state : SessionState) (arguments : Args)
    (rules : List Rule)
    (hne : ∀ r ∈ rules, r.action.getD "approve" ≠ "escalate") :
    runRules function_name "enterprise" session_state arguments rules = Except.ok () := by
  induction rules with
  | nil => rfl
  | cons rule rest ih =>
    have hnerest : ∀ r ∈ rest, r.action.getD "approve" ≠ "escalate" :=
      fun r hr => hne r (List.mem_cons_of_mem _ hr)
    have hne1 : ¬(rule.action.getD "approve" = "escalate") :=
      hne rule (List.mem_cons_self rule rest)
    have h2 : ¬(rule.action.getD "approve" = "reject" ∧ ("enterprise" : String) ≠ "enterprise") :=
      fun hc => hc.2 rfl
    by_cases hcond : evaluate_condition (rule.condition.getD "any") session_state arguments
        rule.threshold = false
    · simp only [runRules, if_pos hcond]
      exact ih hnerest
    · by_cases happ : rule.action.getD "approve" = "approve"
      · simp only [runRules, if_neg hcond, if_neg h2, if_neg hne1, if_pos happ]
      · simp only [runRules, if_neg hcond, if_neg h2, if_neg hne1, if_neg happ]
        exact ih hnerest

/-- Every pair of a sanitised dictionary is either a redacted sensitive
key or an untouched pair of the original dictionary. -/
theorem mem_sanitise_args (arguments : Args) (kv : String × Value)
    (h : kv ∈ sanitise_args arguments) :
    (kv.1 ∈ sensitiveKeys ∧ kv.2 = Value.str "***") ∨
    (kv.1 ∉ sensitiveKeys ∧ kv ∈ arguments) := by
  rw [sanitise_args, List.mem_map] at h
  rcases h with ⟨kv0, hmem, heq⟩
  by_cases hs : kv0.1 ∈ sensitiveKeys
  · rw [if_pos hs] at heq
    subst heq
    exact Or.inl ⟨hs, rfl⟩
  · rw [if_neg hs] at heq
    subst heq
    exact Or.inr ⟨hs, hmem⟩

/-- Non-sensitive pairs survive sanitisation unchanged. -/
theorem mem_sanitise_args_of_not_sensitive (arguments : Args) (kv : String × Value)
    (hmem : kv ∈ arguments) (hs : kv.1 ∉ sensitiveKeys) :
    kv ∈ sanitise_args arguments := by
  rw [sanitise_args, List.mem_map]
  exact ⟨kv, hmem, by rw [if_neg hs]⟩

/-- If the wrapped callable succeeds, `logger_hook` returns its result and
the log is exactly the start record followed by the end record. -/
theorem logger_hook_ok {α : Type} (function_name : String)
    (function_call : Args → Except String α) (arguments : Args) (elapsed : ℚ)
    (result : α) (h : function_call arguments = Except.ok result) :
    logger_hook function_name function_call arguments elapsed =
      (Except.ok result,
       [AuditRecord.start function_name (sanitise_args arguments),
        AuditRecord.stop function_name elapsed]) := by
  simp [logger_hook, h]

/-! ### Concrete policies and invocations used by witnesses and
counterexamples -/

/-- The test fixture constitution: `stripe_refund` rejects high-value
refunds with reason `r1`, then approves anything with reason `r2`. -/
def refundConstitution : Constitution :=
  [("stripe_refund",
     [⟨some "high_value", some "reject", some "r1", some 100⟩,
      ⟨some "any", some "approve", some "r2", none⟩])]

/-- A constitution whose `wire_transfer` entry escalates every call. -/
def escalateConstitution : Constitution :=
  [("wire_transfer", [⟨some "any", some "escalate", some "needs review", none⟩])]

/-- A constitution whose `pay` entry approves first and would reject
second. -/
def approveThenRejectConstitution : Constitution :=
  [("pay",
     [⟨some "any", some "approve", some "fine", none⟩,
      ⟨some "any", some "reject", some "blocked", none⟩])]

/-- A constitution mapping `delete_account` to the single empty rule. -/
def emptyRuleConstitution : Constitution :=
  [("delete_account", [emptyRule])]

/-- A run context whose session reports a standard-tier customer. -/
def standardContext : RunContext := ⟨some ⟨some "standard", none⟩⟩

/-- A run context whose session reports an enterprise-tier customer. -/
def enterpriseContext : RunContext := ⟨some ⟨some "enterprise", none⟩⟩

/-- A 500-dollar refund request. -/
def highValueArgs : Args := [("amount", Value.num 500)]

/-- An evaluation result scored 2/10. -/
def failedEvalResult : EvalResult := ⟨2, false, "turn input", "off brand"⟩

/-! ### Claims -/

/-- Claim C1, counterexample: the claim says the enterprise tier bypass
applies to escalate rules as well, making the match non-blocking with the
action invoked exactly once.  On the code, an escalate rule blocks even an
enterprise caller: the hook raises the escalation `ValueError` and the
underlying action is invoked zero times. -/
theorem C1_counterexample :
    intent_constitution_hook escalateConstitution enterpriseContext "wire_transfer"
      (fun _ => Value.str "ok") [] =
    (Except.error "[Intent Escalation] wire_transfer requires human review: needs review",
     []) := by
  rfl

/-- Claim C1, amended: the tier bypass applies only to reject rules.
For an enterprise caller, every matching reject rule is non-blocking (the
engine continues to later rules), and provided no rule of the action's
list carries action `escalate`, the hook approves and the underlying
action is invoked exactly once; a matching escalate rule blocks even
enterprise callers. -/
theorem C1_enterprise_bypass_reject_only {α : Type} (constitution : Constitution)
    (run_context : RunContext) (function_name : String) (function_call : Args → α)
    (arguments : Args)
    (ht : tierOf run_context = "enterprise")
    (hne : ∀ r ∈ constGet constitution function_name,
      r.action.getD "approve" ≠ "escalate") :
    intent_constitution_hook constitution run_context function_name function_call
      arguments = (Except.ok (function_call arguments), [arguments]) := by
  have hrun : runRules function_name (tierOf run_context) (sessionOf run_context)
      arguments (constGet constitution function_name) = Except.ok () := by
    rw [ht]
    exact runRules_ok_of_enterprise function_name (sessionOf run_context) arguments
      (constGet constitution function_name) hne
  simp [intent_constitution_hook, hrun]

/-- Witness for the amended claim C1: an enterprise caller requesting a
500-dollar refund matches the reject rule, which is bypassed; the approve
rule then fires and the refund executes exactly once. -/
theorem C1_enterprise_bypass_reject_only_witness :
    intent_constitution_hook refundConstitution enterpriseContext "stripe_refund"
      (fun _ => Value.str "refund_ok") highValueArgs =
    (Except.ok (Value.str "refund_ok"), [highValueArgs]) :=
  C1_enterprise_bypass_reject_only refundConstitution enterpriseContext "stripe_refund"
    (fun _ => Value.str "refund_ok") highValueArgs rfl
    (by
      intro r hr
      simp [constGet, refundConstitution, List.mem_cons] at hr
      rcases hr with rfl | rfl <;> decide)

/-- Claim C3: whenever the first matching rule of the invoked action's
list carries action `reject` or `escalate` and the caller's tier is not
enterprise, the hook raises a blocking error whose message ends with the
matched rule's reason text, and the underlying action is never invoked. -/
theorem C3_block_carries_reason {α : Type} (constitution : Constitution)
    (run_context : RunContext) (function_name : String) (function_call : Args → α)
    (arguments : Args) (r : Rule)
    (hm : firstMatch (sessionOf run_context) arguments
      (constGet constitution function_name) = some r)
    (ha : r.action.getD "approve" = "reject" ∨ r.action.getD "approve" = "escalate")
    (ht : tierOf run_context ≠ "enterprise") :
    (intent_constitution_hook constitution run_context function_name function_call
      arguments).2 = [] ∧
    ∃ p, (intent_constitution_hook constitution run_context function_name function_call
      arguments).1 = Except.error (p ++ r.reason.getD "") := by
  have h := runRules_error_of_firstMatch_block function_name (tierOf run_context)
    (sessionOf run_context) arguments (constGet constitution function_name) r hm ha ht
  rcases h with h | h
  · refine ⟨by simp [intent_constitution_hook, h], ?_⟩
    exact ⟨"[Intent Block] " ++ function_name ++ " denied: ",
      by simp [intent_constitution_hook, h, blockMsg]⟩
  · refine ⟨by simp [intent_constitution_hook, h], ?_⟩
    exact ⟨"[Intent Escalation] " ++ function_name ++ " requires human review: ",
      by simp [intent_constitution_hook, h, escalateMsg]⟩

/-- Witness for claim C3: a standard-tier caller requesting a 500-dollar
refund is blocked by the high-value reject rule; the message carries the
rule's reason `r1` and the action is never invoked. -/
theorem C3_block_carries_reason_witness :
    (intent_constitution_hook refundConstitution standardContext "stripe_refund"
      (fun _ => Value.str "ok") highValueArgs).2 = [] ∧
    ∃ p, (intent_constitution_hook refundConstitution standardContext "stripe_refund"
      (fun _ => Value.str "ok") highValueArgs).1 =
      Except.error (p ++ (Rule.mk (some "high_value") (some "reject") (some "r1")
        (some 100)).reason.getD "") :=
  C3_block_carries_reason refundConstitution standardContext "stripe_refund"
    (fun _ => Value.str "ok") highValueArgs
    ⟨some "high_value", some "reject", some "r1", some 100⟩
    (by rfl) (Or.inl rfl) (by decide)

/-- Claim C4: if the invoked action's name is absent from the loaded
constitution — and more generally whenever no rule of its list matches —
the hook approves: it invokes the underlying action exactly once and
returns its result unchanged. -/
theorem C4_fail_open {α : Type} (constitution : Constitution)
    (run_context : RunContext) (function_name : String) (function_call : Args → α)
    (arguments : Args)
    (h : ∀ r ∈ constGet constitution function_name,
      ruleMatches (sessionOf run_context) arguments r = false) :
    intent_constitution_hook constitution run_context function_name function_call
      arguments = (Except.ok (function_call arguments), [arguments]) := by
  have hrun := runRules_ok_of_no_match function_name (tierOf run_context)
    (sessionOf run_context) arguments (constGet constitution function_name) h
  simp [intent_constitution_hook, hrun]

/-- Witness for claim C4: the action name `unknown_tool` has no entry in
the constitution, so the call is approved and executed exactly once. -/
theorem C4_fail_open_witness :
    intent_constitution_hook refundConstitution standardContext "unknown_tool"
      (fun _ => Value.str "unknown_ok") [] =
    (Except.ok (Value.str "unknown_ok"), [[]]) :=
  C4_fail_open refundConstitution standardContext "unknown_tool"
    (fun _ => Value.str "unknown_ok") [] (fun _ hr => nomatch hr)

/-- Claim C5: first-approve-wins — when the first matching rule of the
list carries action `approve`, iteration stops there and the underlying
action executes exactly once, whatever later rules (including reject or
escalate rules) would have decided. -/
theorem C5_first_approve_wins {α : Type} (constitution : Constitution)
    (run_context : RunContext) (function_name : String) (function_call : Args → α)
    (arguments : Args) (r : Rule)
    (hm : firstMatch (sessionOf run_context) arguments
      (constGet constitution function_name) = some r)
    (ha : r.action.getD "approve" = "approve") :
    intent_constitution_hook constitution run_context function_name function_call
      arguments = (Except.ok (function_call arguments), [arguments]) := by
  have hrun := runRules_ok_of_firstMatch_approve function_name (tierOf run_context)
    (sessionOf run_context) arguments (constGet constitution function_name) r hm ha
  simp [intent_constitution_hook, hrun]

/-- Witness for claim C5: `pay` carries an approve rule followed by a
reject rule that would also match; the approve rule wins and the action
executes. -/
theorem C5_first_approve_wins_witness :
    intent_constitution_hook approveThenRejectConstitution standardContext "pay"
      (fun _ => Value.str "paid") [] =
    (Except.ok (Value.str "paid"), [[]]) :=
  C5_first_approve_wins approveThenRejectConstitution standardContext "pay"
    (fun _ => Value.str "paid") []
    ⟨some "any", some "approve", some "fine", none⟩ (by rfl) rfl

/-- Claim C10: missing rule fields default open — a rule without a
`condition` field is evaluated as condition `any` and matches every
invocation; a matching rule without an `action` field is treated as
`approve` and stops the loop with approval; consequently a constitution
entry headed by the empty rule object approves every invocation and the
action executes exactly once. -/
theorem C10_missing_fields_default_open :
    (∀ (session_state : SessionState) (arguments : Args) (a r : Option String)
        (th : Option ℚ),
      ruleMatches session_state arguments ⟨none, a, r, th⟩ = true) ∧
    (∀ (function_name customer_tier : String) (session_state : SessionState)
        (arguments : Args) (c r : Option String) (th : Option ℚ) (rest : List Rule),
      ruleMatches session_state arguments ⟨c, none, r, th⟩ = true →
      runRules function_name customer_tier session_state arguments
        (⟨c, none, r, th⟩ :: rest) = Except.ok ()) ∧
    (∀ (α : Type) (constitution : Constitution) (run_context : RunContext)
        (function_name : String) (function_call : Args → α) (arguments : Args)
        (rest : List Rule),
      constGet constitution function_name = emptyRule :: rest →
      intent_constitution_hook constitution run_context function_name function_call
        arguments = (Except.ok (function_call arguments), [arguments])) := by
  refine ⟨?_, ?_, ?_⟩
  · intro session_state arguments a r th
    simp [ruleMatches, evaluate_condition]
  · intro function_name customer_tier session_state arguments c r th rest hmatch
    rw [ruleMatches] at hmatch
    have hcond : ¬(evaluate_condition ((Rule.mk c none r th).condition.getD "any")
        session_state arguments (Rule.mk c none r th).threshold = false) := by
      simp [hmatch]
    have h2 : ¬((Rule.mk c none r th).action.getD "approve" = "reject" ∧
        customer_tier ≠ "enterprise") := fun hc => by
      have hx : ("approve" : String) = "reject" := hc.1
      exact absurd hx (by decide)
    have h3 : ¬((Rule.mk c none r th).action.getD "approve" = "escalate") := fun hc => by
      have hx : ("approve" : String) = "escalate" := hc
      exact absurd hx (by decide)
    simp only [runRules, if_neg hcond, if_neg h2, if_neg h3]
    simp
  · intro α constitution run_context function_name function_call arguments rest hconst
    have hm : firstMatch (sessionOf run_context) arguments
        (constGet constitution function_name) = some emptyRule := by
      rw [hconst]
      simp [firstMatch, List.find?, ruleMatches, evaluate_condition, emptyRule]
    have hrun := runRules_ok_of_firstMatch_approve function_name (tierOf run_context)
      (sessionOf run_context) arguments (constGet constitution function_name)
      emptyRule hm rfl
    simp [intent_constitution_hook, hrun]

/-- Witness for claim C10: `delete_account` is governed by the single
empty rule object, which matches the call and approves it; the action
executes exactly once. -/
theorem C10_missing_fields_default_open_witness :
    intent_constitution_hook emptyRuleConstitution standardContext "delete_account"
      (fun _ => Value.str "deleted") [] =
    (Except.ok (Value.str "deleted"), [[]]) :=
  C10_missing_fields_default_open.2.2 Value emptyRuleConstitution standardContext
    "delete_account" (fun _ => Value.str "deleted") [] [] rfl

/-- Claim C2, counterexample: the claim says that when the wrapped
callable raises, the audit end record is still emitted before the
exception propagates.  On the code, `logger_hook` has no `try`/`finally`:
when the callable raises, the log holds only the start record and no end
record. -/
theorem C2_counterexample :
    logger_hook "stripe_refund" (fun _ => (Except.error "boom" : Except String Value))
      [] 1 = (Except.error "boom", [AuditRecord.start "stripe_refund" []]) ∧
    (logger_hook "stripe_refund" (fun _ => (Except.error "boom" : Except String Value))
      [] 1).2.countP AuditRecord.isStop = 0 := by
  exact ⟨rfl, rfl⟩

/-- Claim C2, amended: when the wrapped callable raises, the exception
propagates unchanged through `logger_hook`, but the audit end record is
not emitted — the log holds exactly the start record with the sanitised
arguments. -/
theorem C2_exception_skips_end_record {α : Type} (function_name : String)
    (function_call : Args → Except String α) (arguments : Args) (elapsed : ℚ)
    (e : String) (h : function_call arguments = Except.error e) :
    logger_hook function_name function_call arguments elapsed =
      (Except.error e, [AuditRecord.start function_name (sanitise_args arguments)]) := by
  simp [logger_hook, h]

/-- Witness for the amended claim C2: a callable raising `boom` makes the
hook propagate `boom` with only the start record logged. -/
theorem C2_exception_skips_end_record_witness :
    logger_hook "stripe_refund" (fun _ => (Except.error "boom" : Except String Value))
      [("amount", Value.num 5)] 1 =
    (Except.error "boom",
     [AuditRecord.start "stripe_refund" [("amount", Value.num 5)]]) :=
  C2_exception_skips_end_record "stripe_refund"
    (fun _ => (Except.error "boom" : Except String Value))
    [("amount", Value.num 5)] 1 "boom" rfl

/-- Claim C6, counterexample: the claim says the evaluator computes the
spec's reference semantics, where the default threshold 100 is used only
when the `threshold` field is absent.  On the code, `threshold or 100`
also replaces an explicit threshold of 0: a 50-dollar amount against
threshold 0 evaluates to false, while the spec's reference semantics says
50 ≥ 0 is true. -/
theorem C6_counterexample :
    evaluate_condition "high_value" emptySessionState [("amount", Value.num 50)]
      (some 0) = false ∧
    spec_evaluate_condition "high_value" emptySessionState [("amount", Value.num 50)]
      (some 0) = true := by
  exact ⟨rfl, rfl⟩

/-- Claim C6, amended: the condition evaluator computes the reference
semantics in which the default threshold (100 for `high_value`, 730 for
`high_tenure`) is used when the `threshold` field is absent *or zero*
(Python falsiness): `any` is always true; `high_value` is true iff the
`amount` argument coerced to a number (non-numeric or absent becomes 0)
is ≥ the effective threshold; `high_tenure` is true iff the session's
tenure-days value is ≥ the effective threshold; any other condition name
evaluates to false. -/
theorem C6_condition_reference_semantics :
    ∀ (condition : String) (session_state : SessionState) (arguments : Args)
      (threshold : Option ℚ),
      evaluate_condition condition session_state arguments threshold =
        registry_evaluate_condition condition session_state arguments threshold := by
  intro condition session_state arguments threshold
  by_cases h1 : condition = "any"
  · subst h1; rfl
  · by_cases h2 : condition = "high_value"
    · subst h2; rfl
    · by_cases h3 : condition = "high_tenure"
      · subst h3; rfl
      · have h1' : (condition == "any") = false := by simp [h1]
        have h2' : (condition == "high_value") = false := by simp [h2]
        have h3' : (condition == "high_tenure") = false := by simp [h3]
        simp [evaluate_condition, registry_evaluate_condition, conditionRegistry,
          List.lookup, h1, h2, h3, h1', h2', h3']

/-- Claim C7: for a successful invocation through the logger hook,
exactly one start record and one end record are emitted; in every emitted
record, each argument named `password`, `token` or `secret` carries the
fixed redaction marker, every other pair shown is an original pair of the
argument dictionary, and every non-sensitive pair of the arguments
appears in some record unredacted. -/
theorem C7_audit_records_redacted {α : Type} (function_name : String)
    (function_call : Args → Except String α) (arguments : Args) (elapsed : ℚ)
    (result : α) (h : function_call arguments = Except.ok result) :
    (logger_hook function_name function_call arguments elapsed).1 = Except.ok result ∧
    (logger_hook function_name function_call arguments elapsed).2.countP
      AuditRecord.isStart = 1 ∧
    (logger_hook function_name function_call arguments elapsed).2.countP
      AuditRecord.isStop = 1 ∧
    (∀ rec ∈ (logger_hook function_name function_call arguments elapsed).2,
      ∀ kv ∈ rec.recArgs,
        (kv.1 ∈ sensitiveKeys → kv.2 = Value.str "***") ∧
        (kv.1 ∉ sensitiveKeys → kv ∈ arguments)) ∧
    (∀ kv ∈ arguments, kv.1 ∉ sensitiveKeys →
      ∃ rec ∈ (logger_hook function_name function_call arguments elapsed).2,
        kv ∈ rec.recArgs) := by
  rw [logger_hook_ok function_name function_call arguments elapsed result h]
  refine ⟨rfl, ?_, ?_, ?_, ?_⟩
  · simp [List.countP_cons, AuditRecord.isStart]
  · simp [List.countP_cons, AuditRecord.isStop]
  · intro rec hrec kv hkv
    simp [List.mem_cons] at hrec
    rcases hrec with rfl | rfl
    · rw [AuditRecord.recArgs] at hkv
      rcases mem_sanitise_args arguments kv hkv with ⟨hs, hv⟩ | ⟨hs, hv⟩
      · exact ⟨fun _ => hv, fun hns => absurd hs hns⟩
      · exact ⟨fun hsk => absurd hsk hs, fun _ => hv⟩
    · rw [AuditRecord.recArgs] at hkv
      exact absurd hkv (List.not_mem_nil kv)
  · intro kv hkv hns
    refine ⟨AuditRecord.start function_name (sanitise_args arguments), ?_, ?_⟩
    · exact List.mem_cons_self _ _
    · rw [AuditRecord.recArgs]
      exact mem_sanitise_args_of_not_sensitive arguments kv hkv hns

/-- Witness for claim C7: a successful `send_email` call with a
`password` argument emits one start and one end record, with the
password redacted. -/
theorem C7_audit_records_redacted_witness :
    (logger_hook "send_email"
      (fun _ => (Except.ok (Value.str "sent") : Except String Value))
      [("password", Value.str "hunter2"), ("to", Value.str "a@b.com")] 1).1 =
      Except.ok (Value.str "sent") ∧
    (logger_hook "send_email"
      (fun _ => (Except.ok (Value.str "sent") : Except String Value))
      [("password", Value.str "hunter2"), ("to", Value.str "a@b.com")] 1).2.countP
      AuditRecord.isStart = 1 ∧
    (logger_hook "send_email"
      (fun _ => (Except.ok (Value.str "sent") : Except String Value))
      [("password", Value.str "hunter2"), ("to", Value.str "a@b.com")] 1).2.countP
      AuditRecord.isStop = 1 := by
  have h := C7_audit_records_redacted "send_email"
    (fun _ => (Except.ok (Value.str "sent") : Except String Value))
    [("password", Value.str "hunter2"), ("to", Value.str "a@b.com")] 1
    (Value.str "sent") rfl
  exact ⟨h.1, h.2.1, h.2.2.1⟩

/-- Claim C8: escalation delivery never raises past the subsystem
boundary — for every evaluation result, the Slack escalation hook returns
normally, and whenever no webhook URL is configured (falsy URL) or the
outbound post raises, the delivery falls back to the local
always-succeeding notification path. -/
theorem C8_escalation_never_raises (webhook_url : Option String)
    (post : PostOutcome) (result : EvalResult) :
    (∃ path, slackEscalationHookCall webhook_url post result = Except.ok path) ∧
    (urlTruthy webhook_url = false →
      slackEscalationHookCall webhook_url post result =
        Except.ok DeliveryPath.fallback) ∧
    (post ≠ PostOutcome.success →
      slackEscalationHookCall webhook_url post result =
        Except.ok DeliveryPath.fallback) := by
  refine ⟨?_, ?_, ?_⟩
  · by_cases hu : urlTruthy webhook_url = false
    · exact ⟨DeliveryPath.fallback, by simp [slackEscalationHookCall, hu]⟩
    · cases post
      · exact ⟨DeliveryPath.slack,
          by simp [slackEscalationHookCall, hu, postAndRaiseForStatus]⟩
      · exact ⟨DeliveryPath.fallback,
          by simp [slackEscalationHookCall, hu, postAndRaiseForStatus]⟩
      · exact ⟨DeliveryPath.fallback,
          by simp [slackEscalationHookCall, hu, postAndRaiseForStatus]⟩
  · intro hu
    simp [slackEscalationHookCall, hu]
  · intro hp
    by_cases hu : urlTruthy webhook_url = false
    · simp [slackEscalationHookCall, hu]
    · cases post
      · exact absurd rfl hp
      · simp [slackEscalationHookCall, hu, postAndRaiseForStatus]
      · simp [slackEscalationHookCall, hu, postAndRaiseForStatus]

/-- Witness for claim C8: with no webhook URL configured the call returns
the fallback path, and with a configured URL whose post raises it also
returns the fallback path — never an exception. -/
theorem C8_escalation_never_raises_witness :
    slackEscalationHookCall none PostOutcome.raiseOnPost failedEvalResult =
      Except.ok DeliveryPath.fallback ∧
    slackEscalationHookCall (some "https://hooks.slack.example/T000")
      PostOutcome.raiseOnPost failedEvalResult = Except.ok DeliveryPath.fallback :=
  ⟨(C8_escalation_never_raises none PostOutcome.raiseOnPost failedEvalResult).2.1 rfl,
   (C8_escalation_never_raises (some "https://hooks.slack.example/T000")
      PostOutcome.raiseOnPost failedEvalResult).2.2 (by decide)⟩

/-- Claim C9: for every agent with a pre-existing list of tool hooks,
`wrap` produces the hook list `[logger, constitution]` followed by the
pre-existing hooks in their original order — audit outermost, policy
next, no caller-supplied stage discarded — and installs the intent
retriever as the agent's instructions. -/
theorem C9_wrap_prepends_hooks :
    ∀ (hooks : List ToolHook) (instr : Instructions),
      (wrap ⟨some hooks, instr⟩).tool_hooks =
        some ([ToolHook.logger, ToolHook.constitution] ++ hooks) ∧
      (wrap ⟨some hooks, instr⟩).instructions = Instructions.retriever := by
  intro hooks instr
  exact ⟨rfl, rfl⟩

end IntentGovernance
